import Mathlib

/-!
Verification of the car-damage-analysis backend.

The development shallowly embeds the backend's Python code:

* `src/backend/main.py` — `_to_float`, `_recompute_costs` (the cost
  normalizer) and the post-recovery part of the `analyze` endpoint
  (the orchestrator);
* `src/backend/services/openai_service.py` — `_extract_json_block`,
  `_compute_closing_suffix`, `_truncate_and_balance_json` and
  `_parse_model_json` (the three-tier JSON recovery pipeline), together
  with a model of Python's `json.loads` including its reported error
  positions;
* `src/backend/services/sheets_service.py` — `write_damage_report`
  with the external Google-Sheets calls abstracted into an environment
  of call outcomes plus an explicit log of attempted operations.

Python dicts become insertion-ordered association lists, floats become
rationals (exact arithmetic stands in for IEEE doubles), Python `round`
becomes `pyRound` (round half to even), and raising an exception becomes
returning `Except.error`.
-/

namespace CarDamage

set_option maxRecDepth 8192
set_option maxHeartbeats 2000000

/-- A JSON-like value: the payloads flowing through the backend
(Python dicts, lists, strings, numbers, booleans, None). Objects are
insertion-ordered key/value lists, as Python dicts are. -/
inductive JVal where
  | null : JVal
  | bool (b : Bool) : JVal
  | num (q : ℚ) : JVal
  | str (s : String) : JVal
  | arr (xs : List JVal) : JVal
  | obj (kvs : List (String × JVal)) : JVal

/-- Python `d.get(k)`: first (and in a real dict, only) binding of `k`. -/
def getKey : List (String × JVal) → String → Option JVal
  | [], _ => none
  | (k, v) :: rest, key => if k = key then some v else getKey rest key

/-- Python `d[k] = v`: replace the binding in place if the key exists
(keeping its position), otherwise append it. -/
def setKey : List (String × JVal) → String → JVal → List (String × JVal)
  | [], key, v => [(key, v)]
  | (k, w) :: rest, key, v =>
    if k = key then (key, v) :: rest else (k, w) :: setKey rest key v

/-- `d.get(k)` on a `JVal` known to be reached by attribute access:
non-dicts have no `.get` and are handled by the callers. -/
def getKeyJ : JVal → String → Option JVal
  | .obj kvs, k => getKey kvs k
  | _, _ => none

/-- Python truthiness of a JSON-like value (`bool(v)`). -/
def truthy : JVal → Bool
  | .null => false
  | .bool b => b
  | .num q => decide (q ≠ 0)
  | .str s => decide (s ≠ "")
  | .arr xs => !xs.isEmpty
  | .obj kvs => !kvs.isEmpty

/-- Is the value a Python dict? -/
def JVal.isObj : JVal → Bool
  | .obj _ => true
  | _ => false

/-- Python's built-in `round` on a finite float: round half to even,
returning an integer. -/
def pyRound (q : ℚ) : ℤ :=
  let f : ℤ := q.floor
  let r : ℚ := q - (f : ℚ)
  if r < 1 / 2 then f
  else if 1 / 2 < r then f + 1
  else if f % 2 = 0 then f else f + 1

/-- A Python float: a finite value (held exactly as a rational — finite
double arithmetic is modelled exactly, without intermediate rounding),
or one of the IEEE special values `inf`, `-inf`, `nan` that Python
floats carry and that make `round()` raise. -/
inductive PyFloat where
  | finite (q : ℚ) : PyFloat
  | inf : PyFloat
  | negInf : PyFloat
  | nan : PyFloat
deriving DecidableEq

/-- The magnitude at which doubles overflow to infinity: `2 ^ 1024`.
(Round-to-nearest at the boundary — finite values within half an ulp
below `2 ^ 1024` also rounding up to infinity — is not modelled.) -/
def floatMax : ℚ := ((2 ^ 1024 : ℕ) : ℚ)

/-- Python float addition: `nan` is absorbing, opposite infinities give
`nan`, an infinity otherwise wins, and a finite sum overflows to the
signed infinity at `floatMax`. -/
def PyFloat.add : PyFloat → PyFloat → PyFloat
  | .nan, _ => .nan
  | _, .nan => .nan
  | .inf, .negInf => .nan
  | .negInf, .inf => .nan
  | .inf, _ => .inf
  | _, .inf => .inf
  | .negInf, _ => .negInf
  | _, .negInf => .negInf
  | .finite a, .finite b =>
    if floatMax ≤ a + b then .inf
    else if a + b ≤ -floatMax then .negInf
    else .finite (a + b)

/-- Is the float finite? -/
def PyFloat.isFinite : PyFloat → Bool
  | .finite _ => true
  | _ => false

/-- Python's `round` on a float: on `inf`/`-inf` it raises
`OverflowError`, on `nan` it raises `ValueError` — neither is caught
anywhere in `main.py`. -/
def pyRoundF : PyFloat → Except Unit ℤ
  | .finite q => .ok (pyRound q)
  | _ => .error ()

/-- ASCII whitespace stripped by Python's `str.strip` / `str.rstrip`. -/
def pySpace (c : Char) : Bool :=
  c = ' ' ∨ c = '\t' ∨ c = '\n' ∨ c = '\r' ∨ c = Char.ofNat 11 ∨ c = Char.ofNat 12

/-- Run of decimal digits with its value and the rest of the input. -/
def digitsToNat (ds : List Char) : Nat :=
  ds.foldl (fun a c => a * 10 + (c.toNat - 48)) 0

/-- `10 ^ n` as a rational (computed in `ℕ` so that large exponents
from model output reduce without deep recursion). -/
def tenPow (n : Nat) : ℚ := ((10 ^ n : ℕ) : ℚ)

/-- Model of Python's `float(s)` on a string: optional surrounding
whitespace and sign; then the case-insensitive spellings
`inf`/`infinity`/`nan`, or `digits`, `digits.digits`, `.digits` or
`digits.` with an optional decimal exponent, where a numeral beyond the
double range overflows to the signed infinity (as C `strtod` does — no
exception); anything else raises `ValueError` (here: `none`). The `_`
digit separators CPython accepts, and underflow of tiny numerals to
exactly `0.0`, are not modelled; no claim touches them. -/
def pyFloatOfString (s : String) : Option PyFloat :=
  match ((s.data.dropWhile pySpace).reverse.dropWhile pySpace).reverse with
  | cs =>
  match (match cs with
         | '-' :: r => (true, r)
         | '+' :: r => (false, r)
         | r => (false, r) : Bool × List Char) with
  | (neg, cs1) =>
    if cs1.map Char.toLower = "inf".data ∨ cs1.map Char.toLower = "infinity".data then
      some (if neg then .negInf else .inf)
    else if cs1.map Char.toLower = "nan".data then some .nan
    else
    match cs1.takeWhile Char.isDigit, cs1.dropWhile Char.isDigit with
    | ip, cs2 =>
    match (match cs2 with
           | '.' :: r => (r.takeWhile Char.isDigit, r.dropWhile Char.isDigit)
           | r => ([], r) : List Char × List Char) with
    | (fp, cs3) =>
    if ip = [] ∧ fp = [] then none
    else
      match (match cs3 with
             | 'e' :: r =>
               (match r with
                | '-' :: rr => if rr.takeWhile Char.isDigit = [] then none else
                    some (-(digitsToNat (rr.takeWhile Char.isDigit) : ℤ), rr.dropWhile Char.isDigit)
                | '+' :: rr => if rr.takeWhile Char.isDigit = [] then none else
                    some ((digitsToNat (rr.takeWhile Char.isDigit) : ℤ), rr.dropWhile Char.isDigit)
                | rr => if rr.takeWhile Char.isDigit = [] then none else
                    some ((digitsToNat (rr.takeWhile Char.isDigit) : ℤ), rr.dropWhile Char.isDigit))
             | 'E' :: r =>
               (match r with
                | '-' :: rr => if rr.takeWhile Char.isDigit = [] then none else
                    some (-(digitsToNat (rr.takeWhile Char.isDigit) : ℤ), rr.dropWhile Char.isDigit)
                | '+' :: rr => if rr.takeWhile Char.isDigit = [] then none else
                    some ((digitsToNat (rr.takeWhile Char.isDigit) : ℤ), rr.dropWhile Char.isDigit)
                | rr => if rr.takeWhile Char.isDigit = [] then none else
                    some ((digitsToNat (rr.takeWhile Char.isDigit) : ℤ), rr.dropWhile Char.isDigit))
             | r => some ((0 : ℤ), r) : Option (ℤ × List Char)) with
      | none => none
      | some (ex, rest) =>
        if rest ≠ [] then none
        else
          match ((digitsToNat ip : ℚ) + (digitsToNat fp : ℚ) / tenPow fp.length : ℚ) with
          | mant =>
          match (if 0 ≤ ex then mant * tenPow ex.toNat else mant / tenPow (-ex).toNat : ℚ) with
          | mag =>
            if floatMax ≤ mag then some (if neg then .negInf else .inf)
            else some (.finite (if neg then -mag else mag))

/-- `main._to_float` applied to `part.get(key)`: `None` (absent key or
JSON null) becomes `0.0`; booleans convert as in Python
(`float(True) = 1.0`); a string goes through `float(s)`, whose
`ValueError` is caught (`0.0`) but whose `inf`/`nan` results flow on;
lists and dicts raise `TypeError`, also caught. A number of magnitude
at least `floatMax` can only represent a Python `int` beyond the double
range (a JSON float is already a finite double), and `float(int)` then
raises `OverflowError`, which `_to_float` does NOT catch — its `except`
clause lists only `TypeError` and `ValueError` — so the error
propagates (`Except.error`). -/
def to_float : Option JVal → Except Unit PyFloat
  | none => .ok (.finite 0)
  | some .null => .ok (.finite 0)
  | some (.bool b) => .ok (.finite (if b then 1 else 0))
  | some (.num q) =>
    if floatMax ≤ q ∨ q ≤ -floatMax then .error () else .ok (.finite q)
  | some (.str s) =>
    (match pyFloatOfString s with
     | some f => .ok f
     | none => .ok (.finite 0))
  | some (.arr _) => .ok (.finite 0)
  | some (.obj _) => .ok (.finite 0)

/-- The per-part subtotal of `main._recompute_costs`:
`material + paint + structural` in Python float arithmetic, each field
coerced by `_to_float` in source order (an uncaught `OverflowError`
stops the computation at that field). -/
def partCostTotal (pk : List (String × JVal)) : Except Unit PyFloat :=
  match to_float (getKey pk "estimated_material_cost") with
  | .error e => .error e
  | .ok material =>
    match to_float (getKey pk "estimated_paint_cost") with
    | .error e => .error e
    | .ok paint =>
      match to_float (getKey pk "estimated_structural_cost") with
      | .error e => .error e
      | .ok structural => .ok ((material.add paint).add structural)

/-- The loop of `main._recompute_costs`, threading the running
`overall` accumulator exactly as the Python left-to-right `overall +=
part_total` does: per part, coerce the three cost fields, write
`estimated_total_part_cost = round(part_total)` (which raises on an
infinite or NaN total), then accumulate. A list element without `.get`
(a non-dict) raises `AttributeError`. -/
def recomputePartsAux : List JVal → PyFloat → Except Unit (List JVal × PyFloat)
  | [], acc => .ok ([], acc)
  | .obj pk :: rest, acc =>
    (match partCostTotal pk with
     | .error e => .error e
     | .ok pt =>
       match pyRoundF pt with
       | .error e => .error e
       | .ok r =>
         (match recomputePartsAux rest (acc.add pt) with
          | .ok (ps, tot) =>
            .ok (JVal.obj (setKey pk "estimated_total_part_cost" (.num ((r : ℤ) : ℚ))) :: ps, tot)
          | .error e => .error e))
  | _ :: _, _ => .error ()

/-- The whole parts loop, starting from `overall = 0.0`. -/
def recomputeParts (xs : List JVal) : Except Unit (List JVal × PyFloat) :=
  recomputePartsAux xs (.finite 0)

/-- `main._recompute_costs`. `parts = report.get("parts") or []`: a falsy
value (absent, null, false, 0, empty string/list/dict) means no parts; a
truthy non-list cannot be iterated into dicts and raises. The parts list
is mutated in place, so the updated parts land back under `"parts"`, and
`overall_estimated_repair_cost` is set to `round` of the running total —
which raises (uncaught) if that total is infinite or NaN. -/
def recompute_costs (report : JVal) : Except Unit JVal :=
  match report with
  | .obj kvs =>
    (match getKey kvs "parts" with
     | some (.arr xs) =>
       (match recomputeParts xs with
        | .ok (xs2, overall) =>
          (match pyRoundF overall with
           | .ok r =>
             .ok (.obj (setKey (setKey kvs "parts" (.arr xs2))
               "overall_estimated_repair_cost" (.num ((r : ℤ) : ℚ))))
           | .error e => .error e)
        | .error e => .error e)
     | some v =>
       if truthy v then .error ()
       else .ok (.obj (setKey kvs "overall_estimated_repair_cost" (.num ((pyRound 0 : ℤ) : ℚ))))
     | none => .ok (.obj (setKey kvs "overall_estimated_repair_cost" (.num ((pyRound 0 : ℤ) : ℚ)))))
  | _ => .error ()

/-! ### The Tier-3 brace/bracket scanner (`_compute_closing_suffix`) -/

/-- The scanner state of `openai_service._compute_closing_suffix`:
the stack of unclosed openers (head = most recently opened), whether the
scan is inside a double-quoted string, and whether the previous character
was an unconsumed backslash. -/
structure ScanSt where
  stack : List Char
  inString : Bool
  esc : Bool
deriving DecidableEq

/-- Initial scanner state. -/
def scanInit : ScanSt := ScanSt.mk [] false false

/-- One loop iteration of `_compute_closing_suffix`: a character after a
backslash is skipped; a backslash arms the escape flag; an unescaped
quote toggles string state; characters inside strings are otherwise
ignored; outside strings, openers push and a matching closer pops. -/
def scanStep (st : ScanSt) (c : Char) : ScanSt :=
  if st.esc then ScanSt.mk st.stack st.inString false
  else if c = '\\' then ScanSt.mk st.stack st.inString true
  else if c = '"' then ScanSt.mk st.stack (!st.inString) st.esc
  else if st.inString then st
  else if c = '{' ∨ c = '[' then ScanSt.mk (c :: st.stack) st.inString st.esc
  else if c = '}' then
    (match st.stack with
     | '{' :: rest => ScanSt.mk rest st.inString st.esc
     | _ => st)
  else if c = ']' then
    (match st.stack with
     | '[' :: rest => ScanSt.mk rest st.inString st.esc
     | _ => st)
  else st

/-- Scan a whole text from the initial state. -/
def scanText (cs : List Char) : ScanSt := cs.foldl scanStep scanInit

/-- The closing character for an opener. -/
def closerOf (c : Char) : Char := if c = '{' then '}' else ']'

/-- `openai_service._compute_closing_suffix`: one closer per unclosed
opener, most recently opened first (the Python code walks its stack in
reverse; this stack keeps the most recent opener at the head). -/
def compute_closing_suffix (cs : List Char) : List Char :=
  (scanText cs).stack.map closerOf

/-! ### A model of Python's `json.loads`, with its reported error positions

`_parse_model_json` catches `json.JSONDecodeError` and feeds `e.pos`
(the character offset the decoder reports) into the Tier-3 repair, so
the model returns `Except Nat JVal`: `.error p` is a `JSONDecodeError`
whose `pos` is `p`. The positions mirror CPython's pure-Python decoder:
a value error is reported where the value was expected, delimiter and
property-name errors where the offending character sits (after skipping
whitespace), and an unterminated string at its opening quote. -/

/-- Skip JSON whitespace, tracking the absolute position. -/
def skipWs : List Char → Nat → List Char × Nat
  | [], p => ([], p)
  | c :: rest, p =>
    if c = ' ' ∨ c = '\t' ∨ c = '\n' ∨ c = '\r' then skipWs rest (p + 1)
    else (c :: rest, p)

/-- Value of a hex digit, if any. -/
def hexVal (c : Char) : Option Nat :=
  let n := c.toNat
  if 48 ≤ n ∧ n ≤ 57 then some (n - 48)
  else if 97 ≤ n ∧ n ≤ 102 then some (n - 87)
  else if 65 ≤ n ∧ n ≤ 70 then some (n - 55)
  else none

/-- The single-character JSON escapes. -/
def escMap (c : Char) : Option Char :=
  if c = '"' then some '"'
  else if c = '\\' then some '\\'
  else if c = '/' then some '/'
  else if c = 'b' then some (Char.ofNat 8)
  else if c = 'f' then some (Char.ofNat 12)
  else if c = 'n' then some '\n'
  else if c = 'r' then some '\r'
  else if c = 't' then some '\t'
  else none

/-- Body of a JSON string, entered just after the opening quote at
absolute position `begQ`. Returns the decoded characters, the rest of
the input and the position after the closing quote. Errors: running out
of input reports the opening quote's position (CPython's "Unterminated
string starting at"), a raw control character or a bad escape reports
the offending position. Surrogate-pair recombination of two `\uXXXX`
escapes is not modelled; no claim depends on it. -/
def parseStrBody : List Char → Nat → Nat → Except Nat (List Char × List Char × Nat)
  | [], _, begQ => .error begQ
  | c :: rest, p, begQ =>
    if c = '"' then .ok ([], rest, p + 1)
    else if c = '\\' then
      match rest with
      | [] => .error begQ
      | e :: rest2 =>
        if e = 'u' then
          match rest2 with
          | h1 :: h2 :: h3 :: h4 :: rest3 =>
            (match hexVal h1, hexVal h2, hexVal h3, hexVal h4 with
             | some a, some b, some c2, some d =>
               (match parseStrBody rest3 (p + 6) begQ with
                | .ok (out, rem, np) =>
                  .ok (Char.ofNat (((a * 16 + b) * 16 + c2) * 16 + d) :: out, rem, np)
                | .error x => .error x)
             | _, _, _, _ => .error (p + 1))
          | _ => .error (p + 1)
        else
          match escMap e with
          | some ec =>
            (match parseStrBody rest2 (p + 2) begQ with
             | .ok (out, rem, np) => .ok (ec :: out, rem, np)
             | .error x => .error x)
          | none => .error (p + 1)
    else if c.toNat < 32 then .error p
    else
      match parseStrBody rest (p + 1) begQ with
      | .ok (out, rem, np) => .ok (c :: out, rem, np)
      | .error x => .error x

/-- The integer part of CPython's `NUMBER_RE`: a single `0`, or a
nonzero digit followed by digits. -/
def parseIntDigits : List Char → Option (List Char × List Char)
  | [] => none
  | c :: rest =>
    if c = '0' then some ([c], rest)
    else if c.isDigit then some (c :: rest.takeWhile Char.isDigit, rest.dropWhile Char.isDigit)
    else none

/-- A JSON number starting at position `p` (first char is `-` or a
digit). Mirrors CPython's regex `(-?(?:0|[1-9]\d*))(\.\d+)?([eE][-+]?\d+)?`:
a fraction or exponent that does not fully match is simply not consumed.
No match at all reports "Expecting value" at `p`. -/
def parseNumber (cs : List Char) (p : Nat) : Except Nat (JVal × List Char × Nat) :=
  match (match cs with
         | '-' :: r => (true, r, p + 1)
         | r => (false, r, p) : Bool × List Char × Nat) with
  | (neg, cs1, p1) =>
    match parseIntDigits cs1 with
    | none => .error p
    | some (ip, cs2) =>
      match (match cs2 with
             | '.' :: r =>
               (match r.takeWhile Char.isDigit, r.dropWhile Char.isDigit with
                | [], _ => ([], cs2, p1 + ip.length)
                | ds, r2 => (ds, r2, p1 + ip.length + 1 + ds.length))
             | _ => ([], cs2, p1 + ip.length) : List Char × List Char × Nat) with
      | (fd, cs3, p3) =>
        match (match cs3 with
               | e :: r =>
                 if e = 'e' ∨ e = 'E' then
                   (match (match r with
                           | '-' :: rr => (true, rr, 2)
                           | '+' :: rr => (false, rr, 2)
                           | rr => (false, rr, 1) : Bool × List Char × Nat) with
                    | (esign, r2, w) =>
                      (match r2.takeWhile Char.isDigit, r2.dropWhile Char.isDigit with
                       | [], _ => ((0 : ℤ), cs3, p3)
                       | ds, r3 =>
                         ((if esign then -(digitsToNat ds : ℤ) else (digitsToNat ds : ℤ)),
                          r3, p3 + w + ds.length)))
                 else ((0 : ℤ), cs3, p3)
               | [] => ((0 : ℤ), cs3, p3) : ℤ × List Char × Nat) with
        | (ex, cs4, p4) =>
          match ((digitsToNat ip : ℚ) + (digitsToNat fd : ℚ) / tenPow fd.length : ℚ) with
          | mant =>
            match (if 0 ≤ ex then mant * tenPow ex.toNat else mant / tenPow (-ex).toNat : ℚ) with
            | mag => .ok (.num (if neg then -mag else mag), cs4, p4)

mutual

/-- `scan_once` of CPython's decoder: one JSON value starting at the
current (non-whitespace) position. `fuel` only bounds recursion depth and
is chosen large enough in `loads` never to run out on terminating input. -/
def parseVal : Nat → List Char → Nat → Except Nat (JVal × List Char × Nat)
  | 0, _, p => .error p
  | _ + 1, [], p => .error p
  | fuel + 1, c :: rest, p =>
    if c = '"' then
      match parseStrBody rest (p + 1) p with
      | .ok (content, rem, np) => .ok (.str (String.mk content), rem, np)
      | .error e => .error e
    else if c = '{' then parseObjBody fuel rest (p + 1)
    else if c = '[' then parseArrBody fuel rest (p + 1)
    else if c = 't' then
      match rest with
      | 'r' :: 'u' :: 'e' :: rem => .ok (.bool true, rem, p + 4)
      | _ => .error p
    else if c = 'f' then
      match rest with
      | 'a' :: 'l' :: 's' :: 'e' :: rem => .ok (.bool false, rem, p + 5)
      | _ => .error p
    else if c = 'n' then
      match rest with
      | 'u' :: 'l' :: 'l' :: rem => .ok (.null, rem, p + 4)
      | _ => .error p
    else if c = '-' ∨ c.isDigit then parseNumber (c :: rest) p
    else .error p

/-- Inside an object, just after the `{` at position `p - 1`:
an immediate `}` yields the empty object, otherwise members follow. -/
def parseObjBody : Nat → List Char → Nat → Except Nat (JVal × List Char × Nat)
  | 0, _, p => .error p
  | fuel + 1, cs, p =>
    match skipWs cs p with
    | ('}' :: rem, p1) => .ok (.obj [], rem, p1 + 1)
    | (cs1, p1) => parseMembers fuel cs1 p1 []

/-- The member loop of CPython's `JSONObject`, positioned at a property
name. `acc` plays the role of the `pairs` dict: a repeated key keeps its
first position but takes the last value, as `dict(pairs)` does. -/
def parseMembers : Nat → List Char → Nat → List (String × JVal) →
    Except Nat (JVal × List Char × Nat)
  | 0, _, p, _ => .error p
  | fuel + 1, cs, p, acc =>
    match cs with
    | '"' :: rest =>
      (match parseStrBody rest (p + 1) p with
       | .error e => .error e
       | .ok (keyCs, cs2, p2) =>
         (match skipWs cs2 p2 with
          | (':' :: cs4, p3) =>
            (match skipWs cs4 (p3 + 1) with
             | (cs5, p5) =>
               (match parseVal fuel cs5 p5 with
                | .error e => .error e
                | .ok (v, cs6, p6) =>
                  (match skipWs cs6 p6 with
                   | ('}' :: rem, p7) =>
                     .ok (.obj (setKey acc (String.mk keyCs) v), rem, p7 + 1)
                   | (',' :: cs8, p7) =>
                     (match skipWs cs8 (p7 + 1) with
                      | (cs9, p9) => parseMembers fuel cs9 p9 (setKey acc (String.mk keyCs) v))
                   | (_, p7) => .error p7)))
          | (_, p3) => .error p3))
    | _ => .error p

/-- Inside an array, just after the `[` at position `p - 1`. -/
def parseArrBody : Nat → List Char → Nat → Except Nat (JVal × List Char × Nat)
  | 0, _, p => .error p
  | fuel + 1, cs, p =>
    match skipWs cs p with
    | (']' :: rem, p1) => .ok (.arr [], rem, p1 + 1)
    | (cs1, p1) => parseItems fuel cs1 p1 []

/-- The element loop of CPython's `JSONArray`, positioned at a value. -/
def parseItems : Nat → List Char → Nat → List JVal →
    Except Nat (JVal × List Char × Nat)
  | 0, _, p, _ => .error p
  | fuel + 1, cs, p, acc =>
    match parseVal fuel cs p with
    | .error e => .error e
    | .ok (v, cs2, p2) =>
      (match skipWs cs2 p2 with
       | (']' :: rem, p3) => .ok (.arr (acc ++ [v]), rem, p3 + 1)
       | (',' :: cs4, p3) =>
         (match skipWs cs4 (p3 + 1) with
          | (cs5, p5) => parseItems fuel cs5 p5 (acc ++ [v]))
       | (_, p3) => .error p3)

end

/-- `json.loads`: optional leading whitespace, one value, then only
whitespace may remain ("Extra data" otherwise, at the first offending
position). The fuel bound exceeds any possible nesting of the input. -/
def loads (cs : List Char) : Except Nat JVal :=
  match skipWs cs 0 with
  | (cs0, p0) =>
    match parseVal (8 * cs.length + 16) cs0 p0 with
    | .error e => .error e
    | .ok (v, rem, p) =>
      (match skipWs rem p with
       | ([], _) => .ok v
       | (_, p2) => .error p2)

/-! ### The three recovery tiers (`openai_service`) -/

/-- Python `str.strip()` (ASCII whitespace at both ends). -/
def pyStrip (cs : List Char) : List Char :=
  ((cs.dropWhile pySpace).reverse.dropWhile pySpace).reverse

/-- Python `str.strip(c)` for a single character. -/
def stripChar (c : Char) (cs : List Char) : List Char :=
  ((cs.dropWhile (· = c)).reverse.dropWhile (· = c)).reverse

/-- A backtick. -/
def backquote : Char := Char.ofNat 96

/-- `openai_service._extract_json_block`: strip whitespace, strip any
surrounding backticks when the text starts with a code fence, then slice
from the first `{` to the last `}` inclusive; if no such well-ordered
pair exists, return the (stripped) text unchanged. -/
def extract_json_block (cs0 : List Char) : List Char :=
  let cs1 := pyStrip cs0
  let cs :=
    if cs1.take 3 = [backquote, backquote, backquote] then stripChar backquote cs1 else cs1
  match cs.findIdx? (· = '{') with
  | none => cs
  | some start =>
    match cs.reverse.findIdx? (· = '}') with
    | none => cs
    | some rIdx =>
      let endi := cs.length - 1 - rIdx
      if endi ≤ start then cs else (cs.drop start).take (endi - start + 1)

/-- `openai_service._truncate_and_balance_json`: cut the text at the
decoder's error offset, drop the final (incomplete) line if the cut
text contains a newline, strip trailing whitespace, drop one dangling
comma, and append the computed closing suffix. -/
def truncate_and_balance_json (cs : List Char) (errorPos : Nat) : List Char :=
  let part0 := cs.take errorPos
  let part1 :=
    match part0.reverse.findIdx? (· = '\n') with
    | some rIdx => part0.take (part0.length - 1 - rIdx)
    | none => part0
  let part2 := (part1.reverse.dropWhile pySpace).reverse
  let part3 :=
    match part2.reverse with
    | ',' :: r => r.reverse
    | _ => part2
  part3 ++ compute_closing_suffix part3

/-- `openai_service._parse_model_json`: Tier 1 parses the raw text,
Tier 2 parses the extracted block, Tier 3 parses the truncated-and-
balanced block using Tier 2's error position; if all three fail the last
`JSONDecodeError` propagates (the `UnrecoverableFormat` failure). -/
def parse_model_json (cs : List Char) : Except Nat JVal :=
  match loads cs with
  | .ok v => .ok v
  | .error _ =>
    let cleaned := extract_json_block cs
    match loads cleaned with
    | .ok v => .ok v
    | .error e2 =>
      match loads (truncate_and_balance_json cleaned e2) with
      | .ok v => .ok v
      | .error e3 => .error e3

/-- The error position Tier 2 reports for a given raw text (`0` when
Tier 2 in fact succeeds); used to state the all-tiers-fail condition. -/
def tier2errPos (cs : List Char) : Nat :=
  match loads (extract_json_block cs) with
  | .error e => e
  | .ok _ => 0

/-- Did the call succeed? (`Except.isOk`, local to stay self-contained.) -/
def isOkE {ε α : Type _} : Except ε α → Bool
  | .ok _ => true
  | .error _ => false

/-! ### The persistence layer (`sheets_service.write_damage_report`)

The Google-Sheets client is external, so its configuration and the
outcome of each remote call are an environment parameter, and the
function additionally returns the chronological log of remote calls it
attempted — an empty log means no persistence write happened at all. -/

/-- Configuration and remote-call outcomes for one
`write_damage_report` run. -/
structure SheetsEnv where
  /-- `_sheets_available`: a real client was initialized at import. -/
  available : Bool
  /-- `GOOGLE_SHEETS_SPREADSHEET_ID` (`none` = unset). -/
  spreadsheetId : Option String
  /-- `datetime.now().strftime(...)` at write time. -/
  dateStr : String
  /-- Does the master-log `values().append` succeed? -/
  appendMasterOk : Bool
  /-- Outcome of the `addSheet` batch update: the new tab's `sheetId`. -/
  addSheetResult : Except Unit Nat
  /-- Does the header-row `values().update` succeed? -/
  headerOk : Bool
  /-- Does the per-report-tab `values().append` succeed? -/
  tabAppendOk : Bool

/-- One attempted remote Sheets call. -/
inductive SheetOp where
  | masterAppend (rows : List (List JVal))
  | addSheet (title : String)
  | writeHeader (title : String)
  | tabAppend (title : String) (rows : List (List JVal))

/-- The fixed base of every returned locator URL. -/
def sheetsBase : String := "https://docs.google.com/spreadsheets"

/-- How the f-strings render `SPREADSHEET_ID` (Python prints `None`
for an unset variable). -/
def sheetIdStr (env : SheetsEnv) : String :=
  match env.spreadsheetId with
  | some s => s
  | none => "None"

/-- The master-spreadsheet locator URL. -/
def masterUrl (env : SheetsEnv) : String :=
  sheetsBase ++ "/d/" ++ sheetIdStr env ++ "/edit"

/-- The per-report-tab URL (`#gid=` anchor). -/
def tabUrl (env : SheetsEnv) (gid : Nat) : String :=
  masterUrl env ++ "#gid=" ++ toString gid

/-- The URL returned in STUB mode (no configured backend). -/
def stubUrl (env : SheetsEnv) : String :=
  match env.spreadsheetId with
  | some s => if s = "" then sheetsBase else masterUrl env
  | none => sheetsBase

/-- `part.get(key, "")` — the row cells default to the empty string. -/
def getCell (pk : List (String × JVal)) (k : String) : JVal :=
  (getKey pk k).getD (.str "")

/-- One row of `_build_rows_for_master` (columns A–P). -/
def buildMasterRow (rid date : String) (pk : List (String × JVal)) : List JVal :=
  [.str rid, .str date, getCell pk "part_id", getCell pk "part_name",
   getCell pk "damage_description", getCell pk "severity",
   getCell pk "estimated_labor_hours", getCell pk "estimated_material_cost",
   getCell pk "estimated_paint_cost", getCell pk "estimated_structural_cost",
   getCell pk "estimated_total_part_cost",
   .str "", .str "", .str "", .str "", .str ""]

/-- `_build_rows_for_master`: one row per part; a non-dict part has no
`.get` and raises `AttributeError`. -/
def build_rows_for_master (rid date : String) : List JVal → Except Unit (List (List JVal))
  | [] => .ok []
  | .obj pk :: rest =>
    (match build_rows_for_master rid date rest with
     | .ok rs => .ok (buildMasterRow rid date pk :: rs)
     | .error e => .error e)
  | _ :: _ => .error ()

/-- The column-P formula of a per-report-tab row. -/
def totalCostFormula (ri : Nat) : String :=
  let r := toString ri
  "=IF(AND(N" ++ r ++ "<>\"\",O" ++ r ++ "<>\"\"), N" ++ r ++ " + (G" ++ r
    ++ " * O" ++ r ++ "), \"\")"

/-- One data row of the per-report tab (columns A–P, P a formula). -/
def buildReportRow (rid date : String) (ri : Nat) (pk : List (String × JVal)) : List JVal :=
  [.str rid, .str date, getCell pk "part_id", getCell pk "part_name",
   getCell pk "damage_description", getCell pk "severity",
   getCell pk "estimated_labor_hours", getCell pk "estimated_material_cost",
   getCell pk "estimated_paint_cost", getCell pk "estimated_structural_cost",
   getCell pk "estimated_total_part_cost",
   .str "", .str "", .str "", .str "", .str (totalCostFormula ri)]

/-- The per-report-tab data rows, numbered from row 2. -/
def buildReportRows (rid date : String) : Nat → List JVal → Except Unit (List (List JVal))
  | _, [] => .ok []
  | i, .obj pk :: rest =>
    (match buildReportRows rid date (i + 1) rest with
     | .ok rs => .ok (buildReportRow rid date i pk :: rs)
     | .error e => .error e)
  | _, _ :: _ => .error ()

/-- The trailing summary row (its K cell is a live `SUM` formula). -/
def summaryRow (rid date : String) (lastRow : Nat) : List JVal :=
  [.str rid, .str date, .str "TOTAL", .str "Total Estimated Repair Cost",
   .str "", .str "", .str "", .str "", .str "", .str "",
   .str ("=SUM(K2:K" ++ toString lastRow ++ ")"),
   .str "", .str "", .str "", .str "", .str ""]

/-- `report_id.split("-")[0]`. -/
def shortId (rid : String) : String := (rid.splitOn "-").headD ""

/-- `sheets_service.write_damage_report`. Returns the result (the
locator URL, or `.error` for an uncaught exception = `PersistenceFailed`)
together with the log of attempted remote calls. Control flow follows
the source: STUB mode and the empty-parts case return before any remote
call; the master append is outside the `try` (its failure propagates);
everything from `addSheet` on is inside the `try` (any failure there is
caught and the master URL is returned). A `parts` value that is truthy
but not a list of dicts raises while building rows, before any call. -/
def write_damage_report (env : SheetsEnv) (reportId : String) (damageJson : JVal) :
    Except Unit String × List SheetOp :=
  match damageJson with
  | .obj kvs =>
    let pv := (getKey kvs "parts").getD (.arr [])
    let parts0 : JVal := if truthy pv then pv else .arr []
    if env.available = false then
      -- the STUB print takes `len(parts)`: numbers/booleans have no len
      (match parts0 with
       | .arr _ => (.ok (stubUrl env), [])
       | .str _ => (.ok (stubUrl env), [])
       | .obj _ => (.ok (stubUrl env), [])
       | _ => (.error (), []))
    else if truthy parts0 = false then
      (.ok (masterUrl env), [])
    else
      match parts0 with
      | .arr xs =>
        (match build_rows_for_master reportId env.dateStr xs with
         | .error _ => (.error (), [])
         | .ok masterRows =>
           if env.appendMasterOk = false then (.error (), [.masterAppend masterRows])
           else
             let title := "Report_" ++ shortId reportId
             match env.addSheetResult with
             | .error _ => (.ok (masterUrl env), [.masterAppend masterRows, .addSheet title])
             | .ok gid =>
               if env.headerOk = false then
                 (.ok (masterUrl env),
                  [.masterAppend masterRows, .addSheet title, .writeHeader title])
               else
                 match buildReportRows reportId env.dateStr 2 xs with
                 | .error _ =>
                   (.ok (masterUrl env),
                    [.masterAppend masterRows, .addSheet title, .writeHeader title])
                 | .ok rrows =>
                   let rrows2 :=
                     if xs.isEmpty then rrows
                     else rrows ++ [summaryRow reportId env.dateStr (2 + xs.length - 1)]
                   if env.tabAppendOk = false then
                     (.ok (masterUrl env),
                      [.masterAppend masterRows, .addSheet title, .writeHeader title,
                       .tabAppend title rrows2])
                   else
                     (.ok (tabUrl env gid),
                      [.masterAppend masterRows, .addSheet title, .writeHeader title,
                       .tabAppend title rrows2]))
      | _ => (.error (), [])
  | _ => (.error (), [])

/-! ### The orchestrator (`main.analyze`, after JSON recovery)

Image validation and the OpenAI call precede the modelled portion; the
recovered report and a fresh `report_id` enter as parameters, and the
persistence collaborator (`write_damage_report` in production) enters as
a function so that its invocation — or non-invocation — is visible. -/

/-- The caller-visible failures of the modelled portion of `analyze`. -/
inductive AnalyzeErr where
  /-- HTTP 400, "The uploaded images do not appear to be a car.
  Notes: ..." — carries the report's `notes` value. -/
  | notACar (notes : JVal)
  /-- An uncaught exception inside `_recompute_costs` (HTTP 500). -/
  | normalizeCrash
  /-- HTTP 500, "Writing to Google Sheets failed". -/
  | persistenceFailed

/-- `main.analyze` from the recovered report onward: the `is_car`
truthiness gate, then backend cost recomputation, then persistence. -/
def analyzePostModel (write : String → JVal → Except Unit String)
    (reportId : String) (report : List (String × JVal)) :
    Except AnalyzeErr (String × String × JVal) :=
  if truthy ((getKey report "is_car").getD (.bool false)) = false then
    .error (.notACar ((getKey report "notes").getD (.str "")))
  else
    match recompute_costs (.obj report) with
    | .error _ => .error .normalizeCrash
    | .ok normalized =>
      match write reportId normalized with
      | .error _ => .error .persistenceFailed
      | .ok url => .ok (reportId, url, normalized)

/-! ### Statement-side helper definitions -/

/-- A part's coerced subtotal as the Python float computation returns
it (an `Except` because a beyond-double-range int cost propagates
`OverflowError`); `.error` for a non-dict. -/
def partTotalF : JVal → Except Unit PyFloat
  | .obj pk => partCostTotal pk
  | _ => .error ()

/-- A part's unrounded subtotal when it is finite, `0` otherwise —
the exact value the code's running `overall` accumulates in the benign
case. -/
def partTotalJ : JVal → ℚ
  | .obj pk =>
    (match partCostTotal pk with
     | .ok (.finite q) => q
     | _ => 0)
  | _ => 0

/-- The normalized form of one part, for stating what
`_recompute_costs` writes: `estimated_total_part_cost` becomes
`round(material + paint + structural)`. -/
def normPart : JVal → JVal
  | .obj pk =>
    .obj (setKey pk "estimated_total_part_cost"
      (.num ((pyRound (partTotalJ (.obj pk)) : ℤ) : ℚ)))
  | v => v

/-- The numeric content of a persisted field (`0` when absent or not a
number). -/
def numOf : Option JVal → ℚ
  | some (.num q) => q
  | _ => 0

/-- The sum of the persisted per-part `estimated_total_part_cost`
fields of a report — the quantity the claimed invariant rounds. -/
def persistedTotalsSum (v : JVal) : ℚ :=
  match v with
  | .obj kvs =>
    (match getKey kvs "parts" with
     | some (.arr xs) =>
       (xs.map (fun p =>
         numOf (match p with
                | .obj pk => getKey pk "estimated_total_part_cost"
                | _ => none))).sum
     | _ => 0)
  | _ => 0

/-! ### Concrete inputs used by counterexamples and witnesses -/

/-- The truncated model output of the spec's Tier-3 test: cut mid-object
after `"severity":2,`, with no closing braces and no trailing newline. -/
def c2Input : List Char :=
  ("\x7b\"is_car\":true,\"notes\":\"ok\",\"parts\":[\x7b\"part_id\":\"a\",\"part_name\":\"A\",\"severity\":2,").data

/-- What the recovery pipeline actually produces on `c2Input`: the
incomplete part entry is retained (the input has no newline, so the
drop-the-last-line step removes nothing; only the trailing comma goes)
and completed by the closing suffix. -/
def c2Result : JVal :=
  .obj [("is_car", .bool true), ("notes", .str "ok"),
        ("parts", .arr [.obj [("part_id", .str "a"), ("part_name", .str "A"),
                              ("severity", .num 2)]])]

/-- The spec's unrecoverable input. -/
def c5Input : List Char := ("this is not json at all and has no braces").data

/-- Two parts of `0.5` each: per-part totals round (half-to-even) to
`0`, while the overall cost rounds the unrounded sum `1.0` to `1`. -/
def c1cexReport : JVal :=
  .obj [("parts", .arr [.obj [("estimated_material_cost", .num (1 / 2))],
                        .obj [("estimated_material_cost", .num (1 / 2))]])]

/-- `_recompute_costs c1cexReport`. -/
def c1cexOut : JVal :=
  .obj [("parts", .arr [.obj [("estimated_material_cost", .num (1 / 2)),
                              ("estimated_total_part_cost", .num 0)],
                        .obj [("estimated_material_cost", .num (1 / 2)),
                              ("estimated_total_part_cost", .num 0)]]),
        ("overall_estimated_repair_cost", .num 1)]

/-- A report whose one part has an absent material cost, a null
structural cost and the non-numeric paint cost `"n/a"`. -/
def c6Report : List (String × JVal) :=
  [("is_car", .bool true),
   ("parts", .arr [.obj [("part_id", .str "front_bumper"),
                         ("estimated_paint_cost", .str "n/a"),
                         ("estimated_structural_cost", .null)]])]

/-- A report whose one part carries the cost string `"1e999"`:
`float("1e999")` is `inf`, so `round(part_total)` raises
`OverflowError` and the normalizer fails. -/
def c6cexReport : JVal :=
  .obj [("parts", .arr [.obj [("estimated_material_cost", .str "1e999")]])]

/-- A live-mode environment in which every remote call succeeds. -/
def envAllOk : SheetsEnv :=
  SheetsEnv.mk true (some "SID123") "2026-01-02 03:04:05" true (.ok 7) true true

/-- A live-mode environment in which only the per-report-tab append
fails. -/
def envTabFails : SheetsEnv :=
  SheetsEnv.mk true (some "SID123") "2026-01-02 03:04:05" true (.ok 7) true false

/-- A report with `is_car: false`, as in scenario B of the spec. -/
def notACarReport : List (String × JVal) :=
  [("is_car", .bool false), ("notes", .str "a bicycle, not a car"), ("parts", .arr [])]

/-- A well-formed one-part report for the persistence witnesses. -/
def c9Report : JVal :=
  .obj [("is_car", .bool true),
        ("parts", .arr [.obj [("part_id", .str "front_bumper"),
                              ("severity", .num 4),
                              ("estimated_material_cost", .num 600),
                              ("estimated_paint_cost", .num 300),
                              ("estimated_structural_cost", .num 0),
                              ("estimated_total_part_cost", .num 900)]]),
        ("overall_estimated_repair_cost", .num 900)]

/-- A report whose parts list is empty. -/
def emptyPartsReport : JVal :=
  .obj [("is_car", .bool true), ("notes", .str ""), ("parts", .arr [])]

/-! ## Lemmas about the dict operations -/

theorem getKey_setKey_self (kvs : List (String × JVal)) (k : String) (v : JVal) :
    getKey (setKey kvs k v) k = some v := by
  induction kvs with
  | nil => simp [getKey, setKey]
  | cons kv rest ih =>
    obtain ⟨k1, v1⟩ := kv
    by_cases h : k1 = k
    · simp [setKey, h, getKey]
    · simp [setKey, h, getKey, ih]

theorem getKey_setKey_ne (kvs : List (String × JVal)) (k k2 : String) (v : JVal)
    (h : k ≠ k2) : getKey (setKey kvs k v) k2 = getKey kvs k2 := by
  induction kvs with
  | nil => simp [getKey, setKey, h]
  | cons kv rest ih =>
    obtain ⟨k1, v1⟩ := kv
    by_cases h1 : k1 = k
    · subst h1
      simp [setKey, getKey, h]
    · by_cases h2 : k1 = k2 <;> simp [setKey, h1, getKey, h2, Ne.symm h, ih]

theorem setKey_of_getKey_eq (kvs : List (String × JVal)) (k : String) (v : JVal)
    (h : getKey kvs k = some v) : setKey kvs k v = kvs := by
  induction kvs with
  | nil => simp [getKey] at h
  | cons kv rest ih =>
    obtain ⟨k1, v1⟩ := kv
    by_cases h1 : k1 = k
    · subst h1
      simp [getKey] at h
      simp [setKey, h]
    · simp [getKey, h1] at h
      simp [setKey, h1, ih h]

theorem setKey_setKey (kvs : List (String × JVal)) (k : String) (v w : JVal) :
    setKey (setKey kvs k v) k w = setKey kvs k w := by
  induction kvs with
  | nil => simp [setKey]
  | cons kv rest ih =>
    obtain ⟨k1, v1⟩ := kv
    by_cases h1 : k1 = k
    · simp [setKey, h1]
    · simp [setKey, h1, ih]

/-! ## Lemmas about the cost normalizer -/

theorem floatMax_pos : (0 : ℚ) < floatMax := by
  unfold floatMax
  positivity

theorem partCostTotal_setKey_total (pk : List (String × JVal)) (v : JVal) :
    partCostTotal (setKey pk "estimated_total_part_cost" v) = partCostTotal pk := by
  unfold partCostTotal
  rw [getKey_setKey_ne, getKey_setKey_ne, getKey_setKey_ne] <;> decide

theorem recomputePartsAux_allFinite (xs : List JVal) :
    ∀ (a : ℚ),
      (∀ p ∈ xs, p.isObj = true) →
      (∀ p ∈ xs, ∃ q, partTotalF p = .ok (.finite q)) →
      |a| + (xs.map (fun p => |partTotalJ p|)).sum < floatMax →
      recomputePartsAux xs (.finite a) =
        .ok (xs.map normPart, .finite (a + (xs.map partTotalJ).sum)) := by
  induction xs with
  | nil => intro a _ _ _; simp [recomputePartsAux]
  | cons p rest ih =>
    intro a ho hf hb
    have hop := ho p (by simp)
    obtain ⟨q, hq⟩ := hf p (by simp)
    cases p with
    | obj pk =>
      simp only [partTotalF] at hq
      have hqj : partTotalJ (JVal.obj pk) = q := by simp [partTotalJ, hq]
      have hsum0 : 0 ≤ (rest.map (fun p => |partTotalJ p|)).sum := by
        apply List.sum_nonneg
        intro y hy
        simp only [List.mem_map] at hy
        obtain ⟨z, -, rfl⟩ := hy
        exact abs_nonneg _
      have hb2 : |a| + |q| + (rest.map (fun p => |partTotalJ p|)).sum < floatMax := by
        have hb2 := hb
        simp only [List.map_cons, List.sum_cons, hqj] at hb2
        linarith
      have haq : |a + q| ≤ |a| + |q| := abs_add a q
      have hadd : PyFloat.add (.finite a) (.finite q) = .finite (a + q) := by
        have h1 : ¬ floatMax ≤ a + q := by
          intro hcon
          have h3 : floatMax ≤ |a + q| := le_trans hcon (le_abs_self _)
          linarith
        have h2 : ¬ a + q ≤ -floatMax := by
          intro hcon
          have h3 : floatMax ≤ |a + q| := by
            rw [abs_of_nonpos (by linarith [floatMax_pos])]
            linarith
          linarith
        simp [PyFloat.add, h1, h2]
      have ih2 := ih (a + q) (fun r hr => ho r (by simp [hr]))
        (fun r hr => hf r (by simp [hr])) (by linarith)
      simp [recomputePartsAux, hq, pyRoundF, hadd, ih2, normPart, hqj, add_assoc]
    | null => simp [JVal.isObj] at hop
    | bool b => simp [JVal.isObj] at hop
    | num q2 => simp [JVal.isObj] at hop
    | str s => simp [JVal.isObj] at hop
    | arr l => simp [JVal.isObj] at hop

theorem recomputePartsAux_idem (xs : List JVal) :
    ∀ (acc : PyFloat) (ys : List JVal) (tot : PyFloat),
      recomputePartsAux xs acc = .ok (ys, tot) →
      recomputePartsAux ys acc = .ok (ys, tot) := by
  induction xs with
  | nil =>
    intro acc ys tot h
    simp [recomputePartsAux] at h
    obtain ⟨h1, h2⟩ := h
    subst h1; subst h2
    simp [recomputePartsAux]
  | cons p rest ih =>
    intro acc ys tot h
    cases p with
    | obj pk =>
      rcases hpt : partCostTotal pk with e | pt
      · simp [recomputePartsAux, hpt] at h
      · rcases hro : pyRoundF pt with e | r
        · simp [recomputePartsAux, hpt, hro] at h
        · rcases hr : recomputePartsAux rest (acc.add pt) with e | pr
          · simp [recomputePartsAux, hpt, hro, hr] at h
          · obtain ⟨ps, tot2⟩ := pr
            simp [recomputePartsAux, hpt, hro, hr] at h
            obtain ⟨hys, ht⟩ := h
            subst hys; subst ht
            have ih2 := ih (acc.add pt) ps tot2 hr
            simp only [recomputePartsAux, partCostTotal_setKey_total, hpt, hro, ih2,
              setKey_setKey]
    | null => simp [recomputePartsAux] at h
    | bool b => simp [recomputePartsAux] at h
    | num q => simp [recomputePartsAux] at h
    | str s => simp [recomputePartsAux] at h
    | arr l => simp [recomputePartsAux] at h

/-! ## Claims C1, C6, C7 — the cost normalizer -/

/-- Claim C1, counterexample: the claimed persisted invariant —
`overall_estimated_repair_cost = round(Σ part.estimated_total_part_cost)`,
a round of the already-rounded per-part totals — fails on the code. With
two parts of `0.5` each, the persisted per-part totals are `0` and `0`
(round half to even), whose sum rounds to `0`, while the code rounds the
unrounded running total `1.0` and persists `1`. -/
theorem claimC1_counterexample :
    recompute_costs c1cexReport = .ok c1cexOut ∧
    getKeyJ c1cexOut "overall_estimated_repair_cost" = some (.num 1) ∧
    ((pyRound (persistedTotalsSum c1cexOut) : ℤ) : ℚ) = 0 ∧
    JVal.num 1 ≠ JVal.num ((pyRound (persistedTotalsSum c1cexOut) : ℤ) : ℚ) := by
  refine ⟨by with_unfolding_all rfl, by with_unfolding_all rfl,
    by with_unfolding_all rfl, ?_⟩
  intro h
  have h3 : ((pyRound (persistedTotalsSum c1cexOut) : ℤ) : ℚ) = 0 := by
    with_unfolding_all rfl
  rw [h3] at h
  exact one_ne_zero (JVal.num.inj h)

/-- Claim C1, amended: for every report whose `parts` is a list of
dicts with finite coerced costs summing below the double overflow
threshold, the normalizer succeeds and the persisted
`overall_estimated_repair_cost` equals `round` of the sum of the
*unrounded* per-part subtotals `material + paint + structural` (not of
the rounded `estimated_total_part_cost` fields the claim names). -/
theorem claimC1_overall_rounds_unrounded_sum
    (kvs : List (String × JVal)) (xs : List JVal)
    (hp : getKey kvs "parts" = some (.arr xs))
    (ho : ∀ p ∈ xs, p.isObj = true)
    (hf : ∀ p ∈ xs, ∃ q, partTotalF p = .ok (.finite q))
    (hb : (xs.map (fun p => |partTotalJ p|)).sum < floatMax) :
    ∃ kvs2, recompute_costs (.obj kvs) = .ok (.obj kvs2) ∧
      getKey kvs2 "overall_estimated_repair_cost" =
        some (.num ((pyRound ((xs.map partTotalJ).sum) : ℤ) : ℚ)) := by
  have haux := recomputePartsAux_allFinite xs 0 ho hf (by simpa using hb)
  have ha : recompute_costs (.obj kvs) =
      .ok (.obj (setKey (setKey kvs "parts" (.arr (xs.map normPart)))
        "overall_estimated_repair_cost"
        (.num ((pyRound ((xs.map partTotalJ).sum) : ℤ) : ℚ)))) := by
    simp [recompute_costs, hp, recomputeParts, haux, pyRoundF]
  exact ⟨_, ha, getKey_setKey_self _ _ _⟩

/-- Claim C1, witness: the amended statement evaluated on the
two-half-part report; the persisted overall cost is `round(0.5 + 0.5) = 1`. -/
theorem claimC1_witness :
    ∃ kvs2,
      recompute_costs (.obj [("parts",
        .arr [.obj [("estimated_material_cost", .num (1 / 2))],
              .obj [("estimated_material_cost", .num (1 / 2))]])]) = .ok (.obj kvs2) ∧
      getKey kvs2 "overall_estimated_repair_cost" =
        some (.num ((pyRound (([JVal.obj [("estimated_material_cost", .num (1 / 2))],
                               JVal.obj [("estimated_material_cost", .num (1 / 2))]].map
                                 partTotalJ).sum) : ℤ) : ℚ)) :=
  claimC1_overall_rounds_unrounded_sum _ _ rfl (by decide)
    (by
      intro p hp
      refine ⟨1 / 2, ?_⟩
      rcases List.mem_cons.mp hp with rfl | hp2
      · with_unfolding_all rfl
      · rcases List.mem_cons.mp hp2 with rfl | hp3
        · with_unfolding_all rfl
        · simp at hp3)
    (by with_unfolding_all decide)

/-- Claim C6, counterexample: the cost normalizer is NOT total — it can
raise. `float("1e999")` overflows to `inf` (no exception from
`float()`), so a part with that cost string makes
`round(part_total)` raise an uncaught `OverflowError` and the whole
report fails; likewise `_to_float` itself propagates `OverflowError`
for an int cost beyond the double range, since its `except` clause
catches only `TypeError` and `ValueError`. -/
theorem claimC6_counterexample :
    recompute_costs c6cexReport = .error () ∧
    pyFloatOfString "1e999" = some .inf ∧
    to_float (some (.num (10 ^ 400))) = .error () := by
  refine ⟨by with_unfolding_all rfl, by with_unfolding_all rfl, ?_⟩
  have h : floatMax ≤ ((10 : ℚ) ^ 400) := by
    with_unfolding_all decide
  simp [to_float, h]

/-- Claim C6, amended: the normalizer never *raises on the coercions
themselves* — absent keys, nulls and non-numeric strings such as
`"n/a"` coerce to `0` — and on every report whose parts are dicts with
finite coerced costs (each within the double range, their magnitudes
summing below the overflow threshold) it succeeds and sets each part's
`estimated_total_part_cost` to `round(material + paint + structural)`,
exactly `normPart`; it is not total on all reports, failing when a
cost is an out-of-double-range int or coerces to an infinite or NaN
float. -/
theorem claimC6_normalizer_coercion
    (kvs : List (String × JVal)) (xs : List JVal)
    (hp : getKey kvs "parts" = some (.arr xs))
    (ho : ∀ p ∈ xs, p.isObj = true)
    (hf : ∀ p ∈ xs, ∃ q, partTotalF p = .ok (.finite q))
    (hb : (xs.map (fun p => |partTotalJ p|)).sum < floatMax) :
    (∃ kvs2, recompute_costs (.obj kvs) = .ok (.obj kvs2) ∧
       getKey kvs2 "parts" = some (.arr (xs.map normPart))) ∧
    to_float none = .ok (.finite 0) ∧ to_float (some .null) = .ok (.finite 0) ∧
    to_float (some (.str "n/a")) = .ok (.finite 0) := by
  have haux := recomputePartsAux_allFinite xs 0 ho hf (by simpa using hb)
  have ha : recompute_costs (.obj kvs) =
      .ok (.obj (setKey (setKey kvs "parts" (.arr (xs.map normPart)))
        "overall_estimated_repair_cost"
        (.num ((pyRound ((xs.map partTotalJ).sum) : ℤ) : ℚ)))) := by
    simp [recompute_costs, hp, recomputeParts, haux, pyRoundF]
  refine ⟨⟨_, ha, ?_⟩, rfl, rfl, by with_unfolding_all rfl⟩
  rw [getKey_setKey_ne _ _ _ _ (by decide), getKey_setKey_self]

/-- Claim C6, witness: a part with an absent material cost, a null
structural cost and the paint cost `"n/a"` normalizes without failure;
its total is `round(0 + 0 + 0) = 0`. -/
theorem claimC6_witness :
    (∃ kvs2, recompute_costs (.obj c6Report) = .ok (.obj kvs2) ∧
       getKey kvs2 "parts" =
         some (.arr ([JVal.obj [("part_id", .str "front_bumper"),
                                ("estimated_paint_cost", .str "n/a"),
                                ("estimated_structural_cost", .null)]].map normPart))) ∧
    to_float none = .ok (.finite 0) ∧ to_float (some .null) = .ok (.finite 0) ∧
    to_float (some (.str "n/a")) = .ok (.finite 0) :=
  claimC6_normalizer_coercion c6Report _ rfl (by decide)
    (by
      intro p hp
      refine ⟨0, ?_⟩
      rcases List.mem_cons.mp hp with rfl | hp2
      · with_unfolding_all rfl
      · simp at hp2)
    (by with_unfolding_all decide)

/-- Claim C7: the cost normalizer is idempotent — whenever
`_recompute_costs` succeeds, running it again on its own output returns
that output unchanged (every output is a fixed point). -/
theorem claimC7_normalize_idempotent (report normalized : JVal)
    (h : recompute_costs report = .ok normalized) :
    recompute_costs normalized = .ok normalized := by
  cases report with
  | obj kvs =>
    rcases hp : getKey kvs "parts" with _ | v
    · simp only [recompute_costs, hp] at h
      simp at h
      subst h
      have hget : getKey (setKey kvs "overall_estimated_repair_cost"
          (.num ((pyRound 0 : ℤ) : ℚ))) "parts" = none := by
        rw [getKey_setKey_ne _ _ _ _ (by decide)]; exact hp
      simp [recompute_costs, hget, setKey_setKey]
    · cases v with
      | arr xs =>
        rcases hr : recomputeParts xs with e | pr
        · simp [recompute_costs, hp, hr] at h
        · obtain ⟨xs2, tot⟩ := pr
          rcases hro : pyRoundF tot with e | r
          · simp [recompute_costs, hp, hr, hro] at h
          · simp [recompute_costs, hp, hr, hro] at h
            subst h
            have hner : ("overall_estimated_repair_cost" : String) ≠ "parts" := by decide
            have hget : getKey (setKey (setKey kvs "parts" (.arr xs2))
                "overall_estimated_repair_cost" (.num ((r : ℤ) : ℚ))) "parts"
                = some (.arr xs2) := by
              rw [getKey_setKey_ne _ _ _ _ hner, getKey_setKey_self]
            have hr2 : recomputeParts xs2 = .ok (xs2, tot) :=
              recomputePartsAux_idem xs (.finite 0) xs2 tot hr
            simp only [recompute_costs, hget, hr2, hro]
            rw [setKey_of_getKey_eq _ _ _ hget,
                setKey_of_getKey_eq _ _ _ (getKey_setKey_self _ _ _)]
      | null =>
        simp only [recompute_costs, hp] at h
        simp [truthy] at h
        subst h
        have hget : getKey (setKey kvs "overall_estimated_repair_cost"
            (.num ((pyRound 0 : ℤ) : ℚ))) "parts" = some .null := by
          rw [getKey_setKey_ne _ _ _ _ (by decide)]; exact hp
        simp [recompute_costs, hget, truthy, setKey_setKey]
      | bool b =>
        simp only [recompute_costs, hp] at h
        rcases hb : truthy (JVal.bool b) with _ | _
        · rw [hb] at h
          simp at h
          subst h
          have hget : getKey (setKey kvs "overall_estimated_repair_cost"
              (.num ((pyRound 0 : ℤ) : ℚ))) "parts" = some (.bool b) := by
            rw [getKey_setKey_ne _ _ _ _ (by decide)]; exact hp
          simp [recompute_costs, hget, hb, setKey_setKey]
        · rw [hb] at h; simp at h
      | num q =>
        simp only [recompute_costs, hp] at h
        rcases hb : truthy (JVal.num q) with _ | _
        · rw [hb] at h
          simp at h
          subst h
          have hget : getKey (setKey kvs "overall_estimated_repair_cost"
              (.num ((pyRound 0 : ℤ) : ℚ))) "parts" = some (.num q) := by
            rw [getKey_setKey_ne _ _ _ _ (by decide)]; exact hp
          simp [recompute_costs, hget, hb, setKey_setKey]
        · rw [hb] at h; simp at h
      | str s =>
        simp only [recompute_costs, hp] at h
        rcases hb : truthy (JVal.str s) with _ | _
        · rw [hb] at h
          simp at h
          subst h
          have hget : getKey (setKey kvs "overall_estimated_repair_cost"
              (.num ((pyRound 0 : ℤ) : ℚ))) "parts" = some (.str s) := by
            rw [getKey_setKey_ne _ _ _ _ (by decide)]; exact hp
          simp [recompute_costs, hget, hb, setKey_setKey]
        · rw [hb] at h; simp at h
      | obj pkvs =>
        simp only [recompute_costs, hp] at h
        rcases hb : truthy (JVal.obj pkvs) with _ | _
        · rw [hb] at h
          simp at h
          subst h
          have hget : getKey (setKey kvs "overall_estimated_repair_cost"
              (.num ((pyRound 0 : ℤ) : ℚ))) "parts" = some (.obj pkvs) := by
            rw [getKey_setKey_ne _ _ _ _ (by decide)]; exact hp
          simp [recompute_costs, hget, hb, setKey_setKey]
        · rw [hb] at h; simp at h
  | null => simp [recompute_costs] at h
  | bool b => simp [recompute_costs] at h
  | num q => simp [recompute_costs] at h
  | str s => simp [recompute_costs] at h
  | arr l => simp [recompute_costs] at h

/-- Claim C7, witness: idempotence applied to the normalized form of a
report with an empty parts list. -/
theorem claimC7_witness :
    recompute_costs (.obj [("is_car", .bool true), ("notes", .str ""),
      ("parts", .arr []), ("overall_estimated_repair_cost", .num 0)])
      = .ok (.obj [("is_car", .bool true), ("notes", .str ""),
      ("parts", .arr []), ("overall_estimated_repair_cost", .num 0)]) :=
  claimC7_normalize_idempotent emptyPartsReport _ (by with_unfolding_all rfl)

/-! ## Claims C2, C3, C5 — the recovery pipeline -/

/-- Claim C2, counterexample: on the spec's truncated input the
pipeline does succeed with `is_car`/`notes` intact, but `parts` is NOT
the empty sequence — the input has no newline, so Tier 3's
drop-the-incomplete-line step removes nothing, the trailing comma is
dropped and the closing suffix `}]}` completes the partial part entry,
which survives as `{"part_id": "a", "part_name": "A", "severity": 2}`. -/
theorem claimC2_counterexample :
    parse_model_json c2Input = .ok c2Result ∧
    getKeyJ c2Result "parts" =
      some (.arr [.obj [("part_id", .str "a"), ("part_name", .str "A"),
                        ("severity", .num 2)]]) ∧
    JVal.arr [.obj [("part_id", .str "a"), ("part_name", .str "A"),
                    ("severity", .num 2)]] ≠ JVal.arr [] := by
  refine ⟨by with_unfolding_all rfl, rfl, ?_⟩
  intro h
  injection h with h1
  exact absurd h1 (by simp)

/-- Claim C2, amended: on the truncated input `recover` succeeds, the
top-level `is_car` and `notes` are preserved as `true` and `"ok"`, and
`parts` is the one-element sequence holding the truncated entry's
already-written fields (the incomplete entry is completed and kept, not
dropped). -/
theorem claimC2_truncation_keeps_partial_entry :
    parse_model_json c2Input = .ok c2Result ∧
    getKeyJ c2Result "is_car" = some (.bool true) ∧
    getKeyJ c2Result "notes" = some (.str "ok") ∧
    getKeyJ c2Result "parts" =
      some (.arr [.obj [("part_id", .str "a"), ("part_name", .str "A"),
                        ("severity", .num 2)]]) :=
  ⟨by with_unfolding_all rfl, rfl, rfl, rfl⟩

/-- Claim C3, counterexample: the pipeline applies no default-filling.
`"{}"` parses at Tier 1 and is returned as-is: `is_car`, `notes` and
`parts` are all absent from the result, not set to `false`/`""`/`[]`. -/
theorem claimC3_counterexample :
    parse_model_json ("\x7b\x7d".data) = .ok (.obj []) ∧
    getKeyJ (.obj []) "is_car" = none ∧
    getKeyJ (.obj []) "notes" = none ∧
    getKeyJ (.obj []) "parts" = none :=
  ⟨by with_unfolding_all rfl, rfl, rfl, rfl⟩

/-- Claim C3, amended: whichever tier parses, `_parse_model_json`
returns the parsed object unchanged, with no keys added: every value
the pipeline returns is verbatim a `json.loads` result of the Tier-1
raw text, of the Tier-2 extracted block, or of the Tier-3
truncated-and-balanced block at Tier 2's error position. Consumers
apply defaults at access time (`report.get("is_car", False)` etc. in
`main.py`). -/
theorem claimC3_no_default_filling (cs : List Char) (v : JVal)
    (h : parse_model_json cs = .ok v) :
    loads cs = .ok v ∨
    loads (extract_json_block cs) = .ok v ∨
    loads (truncate_and_balance_json (extract_json_block cs) (tier2errPos cs)) = .ok v := by
  unfold parse_model_json at h
  rcases h1 : loads cs with e1 | v1
  · rcases h2 : loads (extract_json_block cs) with e2 | v2
    · rcases h3 : loads (truncate_and_balance_json (extract_json_block cs) e2) with e3 | v3
      · simp [h1, h2, h3] at h
      · simp [h1, h2, h3] at h
        subst h
        refine Or.inr (Or.inr ?_)
        simpa [tier2errPos, h2] using h3
    · simp [h1, h2] at h
      subst h
      exact Or.inr (Or.inl rfl)
  · simp [h1] at h
    subst h
    exact Or.inl rfl

/-- Claim C3, witness: a report carrying only `notes` comes back with
only `notes`, via one of the three tiers verbatim. -/
theorem claimC3_witness :
    loads ("\x7b\"notes\":\"hi\"\x7d".data) = .ok (.obj [("notes", .str "hi")]) ∨
    loads (extract_json_block ("\x7b\"notes\":\"hi\"\x7d".data)) =
      .ok (.obj [("notes", .str "hi")]) ∨
    loads (truncate_and_balance_json
      (extract_json_block ("\x7b\"notes\":\"hi\"\x7d".data))
      (tier2errPos ("\x7b\"notes\":\"hi\"\x7d".data))) =
      .ok (.obj [("notes", .str "hi")]) :=
  claimC3_no_default_filling _ _ (by with_unfolding_all rfl)

/-- Claim C5: the pipeline succeeds exactly when one of the three tiers
parses — direct parse of the raw text, parse of the extracted block, or
parse of the truncated-and-balanced block at Tier 2's error position —
and it fails (propagating the `JSONDecodeError`, never fabricating a
report) on the spec's non-JSON input, whose error position is 0. -/
theorem claimC5_fails_iff_all_tiers_fail :
    (∀ cs : List Char,
      isOkE (parse_model_json cs) =
        (isOkE (loads cs) || isOkE (loads (extract_json_block cs)) ||
         isOkE (loads (truncate_and_balance_json (extract_json_block cs)
           (tier2errPos cs))))) ∧
    parse_model_json c5Input = .error 0 := by
  constructor
  · intro cs
    unfold parse_model_json tier2errPos
    rcases h1 : loads cs with e1 | v1
    · rcases h2 : loads (extract_json_block cs) with e2 | v2
      · rcases h3 : loads (truncate_and_balance_json (extract_json_block cs) e2)
          with e3 | v3 <;> simp [isOkE, h1, h2, h3]
      · simp [isOkE, h1, h2]
    · simp [isOkE, h1]
  · with_unfolding_all rfl

/-! ## Claim C4 — the Tier-3 scanner -/

theorem scanText_append (cs ds : List Char) :
    scanText (cs ++ ds) = ds.foldl scanStep (scanText cs) := by
  simp [scanText, List.foldl_append]

theorem scanStep_openers (st : ScanSt) (c : Char)
    (h : ∀ x ∈ st.stack, x = '{' ∨ x = '[') :
    ∀ x ∈ (scanStep st c).stack, x = '{' ∨ x = '[' := by
  unfold scanStep
  split_ifs with h1 h2 h3 h4 h5 h6 h7
  · exact h
  · exact h
  · exact h
  · exact h
  · intro x hx
    rcases List.mem_cons.mp hx with rfl | hx2
    · exact h5
    · exact h x hx2
  · split
    · rename_i rest heq
      intro x hx
      exact h x (by rw [heq]; exact List.mem_cons_of_mem _ hx)
    · exact h
  · split
    · rename_i rest heq
      intro x hx
      exact h x (by rw [heq]; exact List.mem_cons_of_mem _ hx)
    · exact h
  · exact h

theorem scanFold_openers (l : List Char) : ∀ (st : ScanSt),
    (∀ x ∈ st.stack, x = '{' ∨ x = '[') →
    ∀ x ∈ (l.foldl scanStep st).stack, x = '{' ∨ x = '[' := by
  induction l with
  | nil => intro st h; simpa using h
  | cons c rest ih =>
    intro st h
    simpa using ih _ (scanStep_openers st c h)

theorem foldl_scanStep_closers (stack : List Char) :
    (∀ x ∈ stack, x = '{' ∨ x = '[') →
    List.foldl scanStep (ScanSt.mk stack false false) (stack.map closerOf) =
      ScanSt.mk [] false false := by
  induction stack with
  | nil => intro h; rfl
  | cons x t ih =>
    intro h
    rcases h x (by simp) with rfl | rfl
    · have hstep : scanStep (ScanSt.mk ('{' :: t) false false) (closerOf '{') =
          ScanSt.mk t false false := rfl
      simp only [List.map_cons, List.foldl_cons, hstep]
      exact ih (fun y hy => h y (by simp [hy]))
    · have hstep : scanStep (ScanSt.mk ('[' :: t) false false) (closerOf '[') =
          ScanSt.mk t false false := rfl
      simp only [List.map_cons, List.foldl_cons, hstep]
      exact ih (fun y hy => h y (by simp [hy]))

/-- Claim C4: the Tier-3 balancing scanner. (1) The suffix is one
closing character per unclosed opener, emitted most-recently-opened
first (the head of the scanner's stack). (2) An escaped quote — a quote
right after a backslash — toggles neither string state nor the stack.
(3) Inside a string every character other than a quote or backslash
leaves the state unchanged, so braces and brackets inside strings are
ignored. (4) Consequently, when the scan does not end inside a string
or on a dangling escape, appending the suffix closes every unclosed
opener: rescanning text plus suffix leaves an empty stack. -/
theorem claimC4_closing_suffix_scanner :
    (∀ cs : List Char, compute_closing_suffix cs = (scanText cs).stack.map closerOf) ∧
    (∀ (stk : List Char) (b : Bool),
      scanStep (scanStep (ScanSt.mk stk b false) '\\') '"' = ScanSt.mk stk b false) ∧
    (∀ (stk : List Char) (c : Char),
      c = '"' ∨ c = '\\' ∨ scanStep (ScanSt.mk stk true false) c = ScanSt.mk stk true false) ∧
    (∀ cs : List Char, (scanText cs).inString = true ∨ (scanText cs).esc = true ∨
       scanText (cs ++ compute_closing_suffix cs) = ScanSt.mk [] false false) := by
  refine ⟨fun cs => rfl, fun stk b => rfl, ?_, ?_⟩
  · intro stk c
    by_cases h1 : c = '"'
    · exact Or.inl h1
    by_cases h2 : c = '\\'
    · exact Or.inr (Or.inl h2)
    refine Or.inr (Or.inr ?_)
    simp [scanStep, h1, h2]
  · intro cs
    by_cases h1 : (scanText cs).inString = true
    · exact Or.inl h1
    by_cases h2 : (scanText cs).esc = true
    · exact Or.inr (Or.inl h2)
    refine Or.inr (Or.inr ?_)
    have hop : ∀ x ∈ (scanText cs).stack, x = '{' ∨ x = '[' :=
      scanFold_openers cs scanInit (by simp [scanInit, getKey])
    have hst : scanText cs = ScanSt.mk (scanText cs).stack false false := by
      rcases hs : scanText cs with ⟨stk, instr, es⟩
      rw [hs] at h1 h2
      simp at h1 h2
      simp [h1, h2]
    rw [scanText_append, compute_closing_suffix, hst]
    exact foldl_scanStep_closers _ (by rw [hst] at hop; simpa using hop)

/-! ## Claim C8 — the is_car gate -/

/-- Claim C8: when the recovered report's `is_car` is `false` or absent,
the orchestrator fails with the not-a-car error (HTTP 400) carrying the
report's `notes`, for EVERY persistence collaborator `write` — the
result does not depend on `write`, so neither the master-log append nor
the tab creation is ever invoked for that request. -/
theorem claimC8_not_a_car_no_persistence (report : List (String × JVal))
    (h : getKey report "is_car" = none ∨ getKey report "is_car" = some (.bool false)) :
    ∀ (write : String → JVal → Except Unit String) (rid : String),
      analyzePostModel write rid report =
        .error (.notACar ((getKey report "notes").getD (.str ""))) := by
  intro write rid
  rcases h with h | h <;> simp [analyzePostModel, h, truthy]

/-- Claim C8, witness: scenario B — `is_car: false` fails with the
not-a-car error under a persistence stub that would always succeed. -/
theorem claimC8_witness :
    analyzePostModel (fun _ _ => .ok "unused") "rid-1" notACarReport =
      .error (.notACar ((getKey notACarReport "notes").getD (.str ""))) :=
  claimC8_not_a_car_no_persistence notACarReport (Or.inr rfl) (fun _ _ => .ok "unused") "rid-1"

/-! ## Claims C9, C10 — persistence -/

theorem build_rows_for_master_allObj (rid date : String) (xs : List JVal)
    (h : ∀ p ∈ xs, p.isObj = true) :
    ∃ rs, build_rows_for_master rid date xs = .ok rs := by
  induction xs with
  | nil => exact ⟨[], rfl⟩
  | cons p rest ih =>
    have hp := h p (by simp)
    obtain ⟨rs, hrs⟩ := ih (fun q hq => h q (by simp [hq]))
    cases p with
    | obj pk =>
      exact ⟨buildMasterRow rid date pk :: rs, by simp [build_rows_for_master, hrs]⟩
    | null => simp [JVal.isObj] at hp
    | bool b => simp [JVal.isObj] at hp
    | num q => simp [JVal.isObj] at hp
    | str s => simp [JVal.isObj] at hp
    | arr l => simp [JVal.isObj] at hp

theorem buildReportRows_allObj (rid date : String) (xs : List JVal)
    (h : ∀ p ∈ xs, p.isObj = true) :
    ∀ i, ∃ rs, buildReportRows rid date i xs = .ok rs := by
  induction xs with
  | nil => exact fun i => ⟨[], rfl⟩
  | cons p rest ih =>
    intro i
    have hp := h p (by simp)
    obtain ⟨rs, hrs⟩ := ih (fun q hq => h q (by simp [hq])) (i + 1)
    cases p with
    | obj pk =>
      exact ⟨buildReportRow rid date i pk :: rs, by simp [buildReportRows, hrs]⟩
    | null => simp [JVal.isObj] at hp
    | bool b => simp [JVal.isObj] at hp
    | num q => simp [JVal.isObj] at hp
    | str s => simp [JVal.isObj] at hp
    | arr l => simp [JVal.isObj] at hp

/-- Claim C9: in live mode, on a report whose `parts` is a nonempty
list of dicts, (1) `write_damage_report` succeeds exactly when the
master-log append succeeds — `PersistenceFailed` arises only from the
master append — and (2) unless the master append failed, a failure in
any per-report-tab step (tab creation, header write, tab append) is
caught and the call still succeeds, returning the master-sheet locator
URL instead of the per-report-tab URL. -/
theorem claimC9_persistence_failure_modes (env : SheetsEnv) (rid : String)
    (kvs : List (String × JVal)) (xs : List JVal)
    (hav : env.available = true)
    (hp : getKey kvs "parts" = some (.arr xs))
    (ho : ∀ p ∈ xs, p.isObj = true)
    (hne : xs ≠ []) :
    isOkE (write_damage_report env rid (.obj kvs)).1 = env.appendMasterOk ∧
    (env.appendMasterOk = false ∨
     (isOkE env.addSheetResult = true ∧ env.headerOk = true ∧ env.tabAppendOk = true) ∨
     (write_damage_report env rid (.obj kvs)).1 = .ok (masterUrl env)) := by
  obtain ⟨mrs, hmrs⟩ := build_rows_for_master_allObj rid env.dateStr xs ho
  obtain ⟨rrs, hrrs⟩ := buildReportRows_allObj rid env.dateStr xs ho 2
  have htr : truthy (JVal.arr xs) = true := by
    cases xs with
    | nil => exact absurd rfl hne
    | cons a t => simp [truthy]
  simp only [write_damage_report, hp, Option.getD, htr, if_true, hav]
  rcases ham : env.appendMasterOk with _ | _
  · simp [isOkE, htr, hmrs, ham]
  · rcases has : env.addSheetResult with e | gid
    · simp [isOkE, htr, hmrs, ham, has]
    · rcases hh : env.headerOk with _ | _
      · simp [isOkE, htr, hmrs, ham, has, hh]
      · rcases hta : env.tabAppendOk with _ | _
        · simp [isOkE, htr, hmrs, ham, has, hh, hta, hrrs]
        · simp [isOkE, htr, hmrs, ham, has, hh, hta, hrrs]

/-- Claim C9, witness: with only the per-report-tab append failing, the
one-part report is persisted successfully. -/
theorem claimC9_witness :
    isOkE (write_damage_report envTabFails "r-1" c9Report).1 = envTabFails.appendMasterOk ∧
    (envTabFails.appendMasterOk = false ∨
     (isOkE envTabFails.addSheetResult = true ∧ envTabFails.headerOk = true ∧
      envTabFails.tabAppendOk = true) ∨
     (write_damage_report envTabFails "r-1" c9Report).1 = .ok (masterUrl envTabFails)) :=
  claimC9_persistence_failure_modes envTabFails "r-1" _ _ rfl rfl (by decide)
    (by simp)

/-- Claim C10: in live mode, a report whose `parts` sequence is empty
causes no persistence write at all — the attempted-call log is empty,
so neither the master-log append nor any tab operation happens — and
the call still succeeds, returning the master spreadsheet URL. -/
theorem claimC10_empty_parts_no_write (env : SheetsEnv) (rid : String)
    (kvs : List (String × JVal))
    (hav : env.available = true)
    (hp : getKey kvs "parts" = some (.arr [])) :
    write_damage_report env rid (.obj kvs) = (.ok (masterUrl env), []) := by
  simp [write_damage_report, hp, truthy, hav]

/-- Claim C10, witness: the empty-parts report in the all-success
environment: master URL returned, empty call log. -/
theorem claimC10_witness :
    write_damage_report envAllOk "r-2" emptyPartsReport = (.ok (masterUrl envAllOk), []) :=
  claimC10_empty_parts_no_write envAllOk "r-2"
    [("is_car", .bool true), ("notes", .str ""), ("parts", .arr [])] rfl rfl
